import Mathlib

/-!
Shallow embedding of the plotting pipeline of this repository:
`src/python/plot_rs_ber_bler.py` (Reed-Solomon BER and BLER charts) and
`src/python/plot_nsc_ber.py` (NSC Viterbi BER chart).

Modelling decisions, kept as close to the Python source as the logic allows:

* `extract_params` embeds the function of the same name: a search for the
  regular expression `m(\d+)_N(\d+)_K(\d+)` in a filename, returning the
  integer values of the three captured groups, or the absent sentinel
  (in Python the triple (None, None, None), here Option.none) when no match exists.
  The re.search of Python takes the leftmost match; within the pattern each
  `\d+` is greedy, and because the character after each group in the pattern
  (an underscore) is not a digit, the greedy maximal digit run is the only
  viable match for each group, so no backtracking is needed.  `\d` is
  modelled as an ASCII digit (the filenames in scope are ASCII).
* The module-level scripts are embedded as functions from their inputs (a
  directory listing for `os.listdir("results")`, and a table store
  `String -> Option (Frame A)` standing for `pd.read_csv`) to an `Outcome`:
  the ordered list of filesystem events (directory creation and `savefig`
  calls), the charts rendered, and the first uncaught exception if any.
  Statements reachable after a raise do not run, matching Python.
* Loaded cell values are kept at an abstract type `A`: the pipeline performs
  no arithmetic on them, so genericity expresses verbatim pass-through.
  Style constants given as floats in the source (2.5, 1.8, 1e-5) are embedded
  as the rationals they denote.  Only the keyword arguments relevant to the
  specified behaviour (marker, marker face, sizes, widths, color, label,
  y limits, axis labels, the lower-right text box) are recorded on charts;
  purely cosmetic global state (font family and sizes, grid, legend
  placement, figure size) is not modelled.
-/

namespace FecPlots

/-- Numeric value of an ASCII digit character. -/
def digitVal (c : Char) : Nat := c.toNat - 48

/-- Value of a digit string, as the Python int() computes it on a matched
group (leading zeros allowed). -/
def digitsToNat (l : List Char) : Nat := l.foldl (fun a c => 10 * a + digitVal c) 0

/-- Consume one expected literal character of the pattern. -/
def expectChar (c : Char) : List Char → Option (List Char)
  | [] => none
  | x :: xs => if x = c then some xs else none

/-- Consume one greedy nonempty digit run, the embedding of a `\d+` group:
its integer value and the rest of the input. -/
def grabNum (l : List Char) : Option (Nat × List Char) :=
  if l.takeWhile Char.isDigit = [] then none
  else some (digitsToNat (l.takeWhile Char.isDigit), l.dropWhile Char.isDigit)

/-- Try to match `m(\d+)_N(\d+)_K(\d+)` at the start of `l`
(one anchor position of `re.search`). -/
def matchAt (l : List Char) : Option (Nat × Nat × Nat) :=
  (expectChar 'm' l).bind fun r1 =>
  (grabNum r1).bind fun mr =>
  (expectChar '_' mr.2).bind fun r2 =>
  (expectChar 'N' r2).bind fun r3 =>
  (grabNum r3).bind fun nr =>
  (expectChar '_' nr.2).bind fun r4 =>
  (expectChar 'K' r4).bind fun r5 =>
  (grabNum r5).map fun kr => (mr.1, nr.1, kr.1)

/-- Leftmost match of the pattern, the embedding of `re.search`: anchor
positions are tried left to right. -/
def searchPat : List Char → Option (Nat × Nat × Nat)
  | [] => none
  | c :: cs =>
    match matchAt (c :: cs) with
    | some r => some r
    | none => searchPat cs

/-- Embedding of `extract_params` in plot_rs_ber_bler.py lines 24-34:
`re.search(r"m(\d+)_N(\d+)_K(\d+)", filename)`, returning the int values of
the three groups on a match and the absent sentinel otherwise. -/
def extract_params (filename : String) : Option (Nat × Nat × Nat) :=
  searchPat filename.data

/-- Declarative statement, independent of the search procedure, that a
character string is an instance of the pattern `m<digits>_N<digits>_K<digits>`
whose groups have values m, N and K. -/
def MatchesPat (t : List Char) (m N K : Nat) : Prop :=
  ∃ d1 d2 d3 : List Char,
    d1 ≠ [] ∧ d2 ≠ [] ∧ d3 ≠ [] ∧
    (∀ c ∈ d1, c.isDigit = true) ∧ (∀ c ∈ d2, c.isDigit = true) ∧
    (∀ c ∈ d3, c.isDigit = true) ∧
    t = 'm' :: d1 ++ '_' :: 'N' :: d2 ++ '_' :: 'K' :: d3 ∧
    m = digitsToNat d1 ∧ N = digitsToNat d2 ∧ K = digitsToNat d3

/-- A loaded table: the header row and the data rows, the embedding of the
DataFrame produced by pd.read_csv.  The cell type is abstract: the pipeline
never computes on cell values. -/
structure Frame (A : Type) where
  header : List String
  rows : List (List A)
deriving DecidableEq

/-- Index of a column name in a header, first occurrence first, the embedding
of column resolution in a DataFrame lookup. -/
def colIdx? : List String → String → Option Nat
  | [], _ => none
  | h :: t, nm => if h = nm then some 0 else (colIdx? t nm).map (· + 1)

/-- The cells of column i of each row, in row order; fails when a row is too
short. -/
def colVals? (i : Nat) : List (List A) → Option (List A)
  | [] => some []
  | r :: rs =>
    match r.get? i, colVals? i rs with
    | some a, some as => some (a :: as)
    | _, _ => none

/-- Embedding of `df["name"]`: the named column as a sequence, in row order;
`none` stands for the KeyError pandas raises on a missing column. -/
def getCol (fr : Frame A) (nm : String) : Option (List A) :=
  (colIdx? fr.header nm).bind fun i => colVals? i fr.rows

/-- Embedding of `f.startswith(pre)`. -/
def startsWithStr (pre f : String) : Bool :=
  pre.data.isPrefixOf f.data

/-- Marker glyphs passed to plt.semilogy: "o" and "s". -/
inductive Marker where
  | circle
  | square
deriving DecidableEq

/-- One plt.semilogy call: the data series and the style keyword arguments
relevant to the spec.  A `none` style field records that the keyword was not
passed.  `faceNone` records `markerfacecolor="none"` (a hollow marker). -/
structure SeriesLine (A : Type) where
  xs : List A
  ys : List A
  marker : Option Marker
  markerSize : Option ℚ
  faceNone : Bool
  edgeWidth : Option ℚ
  lineWidth : ℚ
  color : String
  label : String
deriving DecidableEq

/-- One rendered figure: its series in drawing order, the y-axis scale and
limits, axis labels, and the optional lower-right plt.annotate text. -/
structure Chart (A : Type) where
  series : List (SeriesLine A)
  logY : Bool
  yLo : ℚ
  yHi : ℚ
  xLab : String
  yLab : String
  noteLR : Option String
deriving DecidableEq

/-- Filesystem side effects of a run, in program order. -/
inductive FsEvent where
  | mkdirAll (d : String)
  | save (path : String) (dpi : Nat) (tight : Bool)
deriving DecidableEq

/-- Uncaught exceptions of a run: FileNotFoundError from the file locator,
a read failure from pd.read_csv, a KeyError from a missing column. -/
inductive RunErr where
  | missingInput (msg : String)
  | readFail (path : String)
  | missingCol (nm : String)
deriving DecidableEq

/-- What a script run leaves behind: its filesystem events in order, the
charts it rendered, and the first uncaught exception if any. -/
structure Outcome (A : Type) where
  events : List FsEvent
  charts : List (Chart A)
  err : Option RunErr
deriving DecidableEq

/-- Python string interpolation of an optional int: f-strings print the
absent sentinel None as "None". -/
def pyOptNat : Option Nat → String
  | some n => Nat.repr n
  | none => "None"

/-- m, N, K as unpacked from the return of extract_params: each is None
exactly when the triple is absent. -/
def mPart (p : Option (Nat × Nat × Nat)) : Option Nat := p.map (fun q => q.1)

def nPart (p : Option (Nat × Nat × Nat)) : Option Nat := p.map (fun q => q.2.1)

def kPart (p : Option (Nat × Nat × Nat)) : Option Nat := p.map (fun q => q.2.2)

/-- The legend label of an RS coded series: the f-string
`f"RS({N},{K}) coded BPSK"`, interpolated unconditionally. -/
def rsCodedLabel (N K : Option Nat) : String :=
  "RS(" ++ pyOptNat N ++ "," ++ pyOptNat K ++ ") coded BPSK"

/-- The lower-right text box: the f-string `f"m={m}"`. -/
def mNote (m : Option Nat) : String := "m=" ++ pyOptNat m

/-- A coded or simulated curve: hollow marker of size 8, edge width 1.8,
line width 2.5.  Rat.mk' n d is the rational n/d, written so that kernel
evaluation of chart equality stays cheap. -/
def codedSeries (mk : Marker) (col : String) (xs ys : List A) (lab : String) :
    SeriesLine A :=
  { xs := xs, ys := ys, marker := some mk, markerSize := some 8,
    faceNone := true, edgeWidth := some (Rat.mk' 9 5),
    lineWidth := Rat.mk' 5 2, color := col, label := lab }

/-- The theoretical uncoded BPSK curve: a red line of width 2.5, no marker
keyword passed. -/
def bpskSeries (xs ys : List A) : SeriesLine A :=
  { xs := xs, ys := ys, marker := none, markerSize := none,
    faceNone := false, edgeWidth := none, lineWidth := Rat.mk' 5 2,
    color := "r", label := "Uncoded BPSK (theory)" }

/-- The RS BER figure, plot_rs_ber_bler.py lines 57-99: circle-marked green
RS curve, red uncoded line, semilog y clipped to [1e-5, 1], and the m box. -/
def rsBerChart (p : Option (Nat × Nat × Nat)) (ex ers ebp : List A) : Chart A :=
  { series := [codedSeries Marker.circle "g" ex ers
        (rsCodedLabel (nPart p) (kPart p)),
      bpskSeries ex ebp],
    logY := true, yLo := Rat.mk' 1 100000, yHi := 1,
    xLab := "Eb/N0 [dB]", yLab := "Bit Error Rate (BER)",
    noteLR := some (mNote (mPart p)) }

/-- The RS BLER figure, plot_rs_ber_bler.py lines 126-168: square-marked
green RS curve, red uncoded line, same axes, same m box. -/
def rsBlerChart (p : Option (Nat × Nat × Nat)) (ex brs bbp : List A) : Chart A :=
  { series := [codedSeries Marker.square "g" ex brs
        (rsCodedLabel (nPart p) (kPart p)),
      bpskSeries ex bbp],
    logY := true, yLo := Rat.mk' 1 100000, yHi := 1,
    xLab := "Eb/N0 [dB]", yLab := "Block Error Rate (BLER)",
    noteLR := some (mNote (mPart p)) }

/-- The NSC Viterbi BER figure, plot_nsc_ber.py lines 36-84: green circled
soft curve, blue squared hard curve, red uncoded line; no text box. -/
def nscChart (ex es eh eb : List A) : Chart A :=
  { series := [codedSeries Marker.circle "g" ex es "Soft-decision Viterbi",
      codedSeries Marker.square "b" ex eh "Hard-decision Viterbi",
      bpskSeries ex eb],
    logY := true, yLo := Rat.mk' 1 100000, yHi := 1,
    xLab := "Eb/N0 [dB]", yLab := "Bit Error Rate (BER)",
    noteLR := none }

def berMissingMsg : String := "No rs_ber_m*_N*_K*.csv found in results/"

def blerMissingMsg : String := "No rs_bler_m*_N*_K*.csv found in results/"

/-- The file locator of plot_rs_ber_bler.py lines 41-45 and 111-115:
filter the directory listing by prefix, raise FileNotFoundError when the
filter is empty, otherwise take entry [0] of the filtered list. -/
def locateRs (listing : List String) (pre msg : String) : Except RunErr String :=
  match listing.filter (fun f => startsWithStr pre f) with
  | [] => Except.error (RunErr.missingInput msg)
  | f :: _ => Except.ok f

/-- Events of the BER figure writes, plot_rs_ber_bler.py lines 102-103. -/
def berSaves : List FsEvent :=
  [FsEvent.save "images/rs_ber_graph.png" 300 true,
   FsEvent.save "images/rs_ber_graph.svg" 300 true]

/-- Events of the BLER figure writes, plot_rs_ber_bler.py lines 171-172. -/
def blerSaves : List FsEvent :=
  [FsEvent.save "images/rs_bler_graph.png" 300 true,
   FsEvent.save "images/rs_bler_graph.svg" 300 true]

/-- Events of the NSC figure writes, plot_nsc_ber.py lines 91-92. -/
def nscSaves : List FsEvent :=
  [FsEvent.save "images/nsc_ber_graph.png" 300 true,
   FsEvent.save "images/nsc_ber_graph.svg" 300 true]

/-- The whole script plot_rs_ber_bler.py as a function of its two inputs:
the listing of results/ and the readable tables.  Statements run in source
order; a raise stops the run with the events and charts made so far.
os.path.join("results", f) on a listdir entry is "results/" ++ f. -/
def rsRun (listing : List String) (tables : String → Option (Frame A)) :
    Outcome A :=
  let ev0 : List FsEvent := [FsEvent.mkdirAll "images"]
  match locateRs listing "rs_ber" berMissingMsg with
  | Except.error e => ⟨ev0, [], some e⟩
  | Except.ok bf =>
    let berPath := "results/" ++ bf
    let p := extract_params berPath
    match tables berPath with
    | none => ⟨ev0, [], some (RunErr.readFail berPath)⟩
    | some df =>
      match getCol df "EbN0_dB" with
      | none => ⟨ev0, [], some (RunErr.missingCol "EbN0_dB")⟩
      | some ex =>
      match getCol df "BER_RS" with
      | none => ⟨ev0, [], some (RunErr.missingCol "BER_RS")⟩
      | some ers =>
      match getCol df "BER_bpsk" with
      | none => ⟨ev0, [], some (RunErr.missingCol "BER_bpsk")⟩
      | some ebp =>
        let c1 := rsBerChart p ex ers ebp
        let ev1 := ev0 ++ berSaves
        match locateRs listing "rs_bler" blerMissingMsg with
        | Except.error e => ⟨ev1, [c1], some e⟩
        | Except.ok blf =>
          let blerPath := "results/" ++ blf
          match tables blerPath with
          | none => ⟨ev1, [c1], some (RunErr.readFail blerPath)⟩
          | some df2 =>
            match getCol df2 "EbN0_dB" with
            | none => ⟨ev1, [c1], some (RunErr.missingCol "EbN0_dB")⟩
            | some ex2 =>
            match getCol df2 "BLER_RS" with
            | none => ⟨ev1, [c1], some (RunErr.missingCol "BLER_RS")⟩
            | some brs =>
            match getCol df2 "BLER_bpsk" with
            | none => ⟨ev1, [c1], some (RunErr.missingCol "BLER_bpsk")⟩
            | some bbp =>
              ⟨ev1 ++ blerSaves, [c1, rsBlerChart p ex2 brs bbp], none⟩

/-- The whole script plot_nsc_ber.py as a function of the readable tables:
its input path is the constant "results/nsc_ber_data.csv". -/
def nscRun (tables : String → Option (Frame A)) : Outcome A :=
  let ev0 : List FsEvent := [FsEvent.mkdirAll "images"]
  match tables "results/nsc_ber_data.csv" with
  | none => ⟨ev0, [], some (RunErr.readFail "results/nsc_ber_data.csv")⟩
  | some df =>
    match getCol df "EbN0_dB" with
    | none => ⟨ev0, [], some (RunErr.missingCol "EbN0_dB")⟩
    | some ex =>
    match getCol df "BER_soft" with
    | none => ⟨ev0, [], some (RunErr.missingCol "BER_soft")⟩
    | some es =>
    match getCol df "BER_hard" with
    | none => ⟨ev0, [], some (RunErr.missingCol "BER_hard")⟩
    | some eh =>
    match getCol df "BER_bpsk" with
    | none => ⟨ev0, [], some (RunErr.missingCol "BER_bpsk")⟩
    | some eb =>
      ⟨ev0 ++ nscSaves, [nscChart ex es eh eb], none⟩

/-- Embedding of os.makedirs(d, exist_ok=True) on a set of existing
directories: create if missing, never an error. -/
def makedirsOk (ds : List String) (d : String) : List String :=
  if d ∈ ds then ds else d :: ds

/-- Embedding of a savefig write into a flat file store: the new content
replaces any file already at the path. -/
def writeFile (fs : List (String × Nat × Bool)) (p : String)
    (meta : Nat × Bool) : List (String × Nat × Bool) :=
  (p, meta) :: fs.filter (fun q => !(q.1 == p))

/-- The paths written by a run, in order. -/
def savePathsOf (o : Outcome A) : List String :=
  o.events.filterMap (fun e => match e with
    | FsEvent.save p _ _ => some p
    | FsEvent.mkdirAll _ => none)

/-- Every save of the run is at 300 dpi with a tight bounding box. -/
def saveMetaOk (o : Outcome A) : Bool :=
  o.events.all (fun e => match e with
    | FsEvent.save _ d t => d == 300 && t
    | FsEvent.mkdirAll _ => true)

def frameBer : Frame Nat := ⟨["EbN0_dB", "BER_RS", "BER_bpsk"], [[0, 1, 2], [3, 4, 5]]⟩

def frameBler : Frame Nat :=
  ⟨["EbN0_dB", "BLER_RS", "BLER_bpsk"], [[0, 6, 7], [3, 8, 9]]⟩

def frameNsc : Frame Nat :=
  ⟨["EbN0_dB", "BER_soft", "BER_hard", "BER_bpsk"], [[0, 1, 2, 3], [4, 5, 6, 7]]⟩

/-- A concrete results directory content for witnesses: parameter-bearing
filenames, the BLER name deliberately encoding a different triple than the
BER name. -/
def tablesA : String → Option (Frame Nat) := fun p =>
  if p = "results/rs_ber_m8_N255_K223.csv" then some frameBer
  else if p = "results/rs_bler_m4_N15_K9.csv" then some frameBler
  else if p = "results/rs_ber_legacy.csv" then some frameBer
  else if p = "results/rs_bler_plain.csv" then some frameBler
  else if p = "results/nsc_ber_data.csv" then some frameNsc
  else none

def listingA : List String := ["rs_ber_m8_N255_K223.csv", "rs_bler_m4_N15_K9.csv"]

/-- A listing whose filenames carry no parameter pattern. -/
def listingLegacy : List String := ["rs_ber_legacy.csv", "rs_bler_plain.csv"]

/-- A listing with a BER file but no file whose name starts with rs_bler. -/
def listingNoBler : List String := ["rs_ber_m8_N255_K223.csv"]

/-- Projection of the style facts claim C8 speaks about: the marker glyph,
whether the marker face is hollow, and the line width. -/
def styleOf (s : SeriesLine A) : Option Marker × Bool × ℚ :=
  (s.marker, s.faceNone, s.lineWidth)

theorem takeWhile_append_all {p : Char → Bool} (d r : List Char)
    (hd : ∀ c ∈ d, p c = true) :
    (d ++ r).takeWhile p = d ++ r.takeWhile p := by
  induction d with
  | nil => simp
  | cons a t ih =>
    have ha : p a = true := hd a (List.mem_cons_self a t)
    simp only [List.cons_append, List.takeWhile_cons, ha, if_true]
    rw [ih (fun c hc => hd c (List.mem_cons_of_mem a hc))]

theorem dropWhile_append_all {p : Char → Bool} (d r : List Char)
    (hd : ∀ c ∈ d, p c = true) :
    (d ++ r).dropWhile p = r.dropWhile p := by
  induction d with
  | nil => simp
  | cons a t ih =>
    have ha : p a = true := hd a (List.mem_cons_self a t)
    simp only [List.cons_append, List.dropWhile_cons, ha, if_true]
    exact ih (fun c hc => hd c (List.mem_cons_of_mem a hc))

theorem mem_takeWhile_digit {l : List Char} {c : Char}
    (h : c ∈ l.takeWhile Char.isDigit) : c.isDigit = true := by
  induction l with
  | nil => simp [List.takeWhile] at h
  | cons a t ih =>
    by_cases ha : a.isDigit = true
    · simp only [List.takeWhile_cons, ha, if_true, List.mem_cons] at h
      cases h with
      | inl h => exact h ▸ ha
      | inr h => exact ih h
    · simp only [List.takeWhile_cons, ha] at h
      simp at h

theorem expectChar_eq_some {c : Char} {l r : List Char} :
    expectChar c l = some r ↔ l = c :: r := by
  cases l with
  | nil => simp [expectChar]
  | cons x xs =>
    simp only [expectChar]
    by_cases hx : x = c
    · subst hx; simp
    · simp [hx]

theorem grabNum_eq_some {l : List Char} {n : Nat} {r : List Char} :
    grabNum l = some (n, r) ↔
      l.takeWhile Char.isDigit ≠ [] ∧
      n = digitsToNat (l.takeWhile Char.isDigit) ∧
      r = l.dropWhile Char.isDigit := by
  unfold grabNum
  by_cases hd : l.takeWhile Char.isDigit = []
  · rw [if_pos hd]; simp [hd]
  · rw [if_neg hd]
    simp only [Option.some.injEq, Prod.mk.injEq]
    constructor
    · rintro ⟨hn, hr⟩; exact ⟨hd, hn.symm, hr.symm⟩
    · rintro ⟨-, hn, hr⟩; exact ⟨hn.symm, hr.symm⟩

/-- Soundness of one anchor position: a successful `matchAt` exhibits an
instance of the pattern as a prefix of the input, whose group values are the
returned triple. -/
theorem matchAt_sound {l : List Char} {m N K : Nat}
    (h : matchAt l = some (m, N, K)) :
    ∃ t suf, l = t ++ suf ∧ MatchesPat t m N K := by
  unfold matchAt at h
  obtain ⟨r1, he1, h⟩ := Option.bind_eq_some.mp h
  obtain ⟨mr, hg1, h⟩ := Option.bind_eq_some.mp h
  obtain ⟨mval, mrest⟩ := mr
  obtain ⟨r2, he2, h⟩ := Option.bind_eq_some.mp h
  obtain ⟨r3, he3, h⟩ := Option.bind_eq_some.mp h
  obtain ⟨nr, hg2, h⟩ := Option.bind_eq_some.mp h
  obtain ⟨nval, nrest⟩ := nr
  obtain ⟨r4, he4, h⟩ := Option.bind_eq_some.mp h
  obtain ⟨r5, he5, h⟩ := Option.bind_eq_some.mp h
  obtain ⟨kr, hg3, hfin⟩ := Option.map_eq_some'.mp h
  obtain ⟨kval, krest⟩ := kr
  dsimp only at he2 he4
  rw [expectChar_eq_some] at he1 he2 he3 he4 he5
  obtain ⟨hne1, hv1, hd1⟩ := grabNum_eq_some.mp hg1
  obtain ⟨hne2, hv2, hd2⟩ := grabNum_eq_some.mp hg2
  obtain ⟨hne3, hv3, hd3⟩ := grabNum_eq_some.mp hg3
  simp only [Prod.mk.injEq] at hfin
  obtain ⟨hfm, hfN, hfK⟩ := hfin
  refine ⟨'m' :: (r1.takeWhile Char.isDigit ++
      '_' :: 'N' :: (r3.takeWhile Char.isDigit ++
      '_' :: 'K' :: r5.takeWhile Char.isDigit)),
      r5.dropWhile Char.isDigit, ?_, ?_⟩
  · subst he1
    have e1 : r1.takeWhile Char.isDigit ++ r1.dropWhile Char.isDigit = r1 :=
      List.takeWhile_append_dropWhile Char.isDigit r1
    have e3 : r3.takeWhile Char.isDigit ++ r3.dropWhile Char.isDigit = r3 :=
      List.takeWhile_append_dropWhile Char.isDigit r3
    have e5 : r5.takeWhile Char.isDigit ++ r5.dropWhile Char.isDigit = r5 :=
      List.takeWhile_append_dropWhile Char.isDigit r5
    generalize hw1 : r1.takeWhile Char.isDigit = t1 at e1 ⊢
    generalize hq1 : r1.dropWhile Char.isDigit = q1 at e1 hd1
    generalize hw3 : r3.takeWhile Char.isDigit = t3 at e3 ⊢
    generalize hq3 : r3.dropWhile Char.isDigit = q3 at e3 hd2
    generalize hw5 : r5.takeWhile Char.isDigit = t5 at e5 ⊢
    generalize hq5 : r5.dropWhile Char.isDigit = q5 at e5 ⊢
    have hd1e : q1 = '_' :: r2 := hd1 ▸ he2
    have hd2e : q3 = '_' :: r4 := hd2 ▸ he4
    rw [List.cons_append, List.cons.injEq]
    refine ⟨rfl, ?_⟩
    calc r1 = t1 ++ q1 := e1.symm
      _ = t1 ++ '_' :: 'N' :: r3 := by rw [hd1e, he3]
      _ = t1 ++ '_' :: 'N' :: (t3 ++ q3) := by rw [e3]
      _ = t1 ++ '_' :: 'N' :: (t3 ++ '_' :: 'K' :: r5) := by rw [hd2e, he5]
      _ = t1 ++ '_' :: 'N' :: (t3 ++ '_' :: 'K' :: (t5 ++ q5)) := by rw [e5]
      _ = (t1 ++ '_' :: 'N' :: (t3 ++ '_' :: 'K' :: t5)) ++ q5 := by
        simp [List.append_assoc]
  · refine ⟨r1.takeWhile Char.isDigit, r3.takeWhile Char.isDigit,
      r5.takeWhile Char.isDigit, hne1, hne2, hne3,
      fun c hc => mem_takeWhile_digit hc,
      fun c hc => mem_takeWhile_digit hc,
      fun c hc => mem_takeWhile_digit hc, by simp, ?_, ?_, ?_⟩
    · rw [← hfm, hv1]
    · rw [← hfN, hv2]
    · rw [← hfK, hv3]

theorem grabNum_digits_then {d Y : List Char} {x : Char} (hne : d ≠ [])
    (hall : ∀ c ∈ d, c.isDigit = true) (hx : x.isDigit = false) :
    grabNum (d ++ x :: Y) = some (digitsToNat d, x :: Y) := by
  have e1 : (d ++ x :: Y).takeWhile Char.isDigit = d := by
    rw [takeWhile_append_all d _ hall, List.takeWhile_cons, hx]
    simp
  have e2 : (d ++ x :: Y).dropWhile Char.isDigit = x :: Y := by
    rw [dropWhile_append_all d _ hall, List.dropWhile_cons, hx]
    simp
  unfold grabNum
  rw [e1, e2, if_neg hne]

theorem grabNum_isSome_of_digits {d r : List Char} (hne : d ≠ [])
    (hall : ∀ c ∈ d, c.isDigit = true) : (grabNum (d ++ r)).isSome = true := by
  have hnil : (d ++ r).takeWhile Char.isDigit ≠ [] := by
    rw [takeWhile_append_all d r hall]
    intro hcontra
    exact hne (List.append_eq_nil.mp hcontra).1
  unfold grabNum
  rw [if_neg hnil]
  rfl

/-- Completeness of one anchor position: an instance of the pattern sitting
at the start of the input makes `matchAt` succeed. -/
theorem matchAt_isSome_of_pat {t suf : List Char} {m N K : Nat}
    (hm : MatchesPat t m N K) : (matchAt (t ++ suf)).isSome = true := by
  obtain ⟨d1, d2, d3, h1, h2, h3, p1, p2, p3, ht, -, -, -⟩ := hm
  subst ht
  have hu : ('_' : Char).isDigit = false := by decide
  simp only [List.cons_append, List.append_assoc]
  unfold matchAt
  rw [show expectChar 'm' ('m' :: (d1 ++ '_' :: 'N' ::
        (d2 ++ '_' :: 'K' :: (d3 ++ suf)))) = some (d1 ++ '_' :: 'N' ::
        (d2 ++ '_' :: 'K' :: (d3 ++ suf))) from by simp [expectChar]]
  rw [Option.some_bind]
  rw [grabNum_digits_then h1 p1 hu, Option.some_bind]
  rw [show expectChar '_' ('_' :: 'N' :: (d2 ++ '_' :: 'K' :: (d3 ++ suf))) =
        some ('N' :: (d2 ++ '_' :: 'K' :: (d3 ++ suf))) from by simp [expectChar]]
  rw [Option.some_bind]
  rw [show expectChar 'N' ('N' :: (d2 ++ '_' :: 'K' :: (d3 ++ suf))) =
        some (d2 ++ '_' :: 'K' :: (d3 ++ suf)) from by simp [expectChar]]
  rw [Option.some_bind]
  rw [grabNum_digits_then h2 p2 hu, Option.some_bind]
  rw [show expectChar '_' ('_' :: 'K' :: (d3 ++ suf)) =
        some ('K' :: (d3 ++ suf)) from by simp [expectChar]]
  rw [Option.some_bind]
  rw [show expectChar 'K' ('K' :: (d3 ++ suf)) = some (d3 ++ suf) from by
        simp [expectChar]]
  rw [Option.some_bind]
  have := grabNum_isSome_of_digits h3 p3 (r := suf)
  obtain ⟨v, hv⟩ := Option.isSome_iff_exists.mp this
  rw [hv]
  rfl

/-- A failed search means no substring of the input is an instance of the
pattern. -/
theorem searchPat_none_sound {l : List Char} (h : searchPat l = none) :
    ∀ pre t suf m N K, l = pre ++ t ++ suf → ¬ MatchesPat t m N K := by
  induction l with
  | nil =>
    intro pre t suf m N K hdec hm
    obtain ⟨d1, d2, d3, -, -, -, -, -, -, ht, -, -, -⟩ := hm
    have : t = [] := by
      rcases List.append_eq_nil.mp (List.append_eq_nil.mp hdec.symm).1 with ⟨-, h2⟩
      exact h2
    rw [this] at ht
    exact List.noConfusion ht
  | cons c cs ih =>
    intro pre t suf m N K hdec hm
    have hstep : matchAt (c :: cs) = none ∧ searchPat cs = none := by
      unfold searchPat at h
      cases hma : matchAt (c :: cs) with
      | some r => rw [hma] at h; exact absurd h (by simp)
      | none => rw [hma] at h; exact ⟨rfl, h⟩
    cases pre with
    | nil =>
      simp only [List.nil_append] at hdec
      have : (matchAt (c :: cs)).isSome = true := by
        rw [hdec]
        exact matchAt_isSome_of_pat hm
      rw [hstep.1] at this
      exact Bool.noConfusion this
    | cons a pre2 =>
      have haeq : a = c ∧ cs = pre2 ++ t ++ suf := by
        simp only [List.cons_append, List.cons.injEq] at hdec
        exact ⟨hdec.1.symm, hdec.2⟩
      exact ih hstep.2 pre2 t suf m N K haeq.2 hm

/-- A successful search exhibits the leftmost instance of the pattern: its
group values are returned, and no instance starts strictly earlier. -/
theorem searchPat_some_sound {l : List Char} {m N K : Nat}
    (h : searchPat l = some (m, N, K)) :
    ∃ pre t suf, l = pre ++ t ++ suf ∧ MatchesPat t m N K ∧
      ∀ pre2 t2 suf2 m2 N2 K2, l = pre2 ++ t2 ++ suf2 →
        MatchesPat t2 m2 N2 K2 → pre.length ≤ pre2.length := by
  induction l with
  | nil => simp [searchPat] at h
  | cons c cs ih =>
    unfold searchPat at h
    cases hma : matchAt (c :: cs) with
    | some r =>
      rw [hma] at h
      simp only [Option.some.injEq] at h
      subst h
      obtain ⟨t, suf, hdec, hmp⟩ := matchAt_sound hma
      exact ⟨[], t, suf, by simpa using hdec, hmp,
        fun pre2 t2 suf2 m2 N2 K2 hd2 hm2 => Nat.zero_le pre2.length⟩
    | none =>
      rw [hma] at h
      obtain ⟨pre, t, suf, hdec, hmp, hmin⟩ := ih h
      refine ⟨c :: pre, t, suf, by simp [hdec], hmp, ?_⟩
      intro pre2 t2 suf2 m2 N2 K2 hd2 hm2
      cases pre2 with
      | nil =>
        simp only [List.nil_append] at hd2
        have : (matchAt (c :: cs)).isSome = true := by
          rw [hd2]
          exact matchAt_isSome_of_pat hm2
        rw [hma] at this
        exact Bool.noConfusion this
      | cons a pre3 =>
        have hcs : cs = pre3 ++ t2 ++ suf2 := by
          simp only [List.cons_append, List.cons.injEq] at hd2
          exact hd2.2
        have := hmin pre3 t2 suf2 m2 N2 K2 hcs hm2
        simpa [List.length_cons] using Nat.succ_le_succ this

/-- Claim C3: parameter extraction is total and purely lexical.  For any
filename string, extract_params returns either the integer triple read off
the first (leftmost) substring matching m digits _N digits _K digits -- an
instance of the pattern appearing verbatim in the filename -- or the absent
sentinel when no such substring exists.  Being a total Lean function into
Option, it never raises; the final conjuncts show that no Reed-Solomon
consistency check is applied (N = 10 is accepted alongside m = 3 although
2 ^ 3 - 1 = 7) and that a pattern-free name yields the sentinel. -/
theorem extract_params_total_lexical :
    (∀ s : String,
      (∃ m N K, extract_params s = some (m, N, K) ∧
        ∃ pre t suf, s.data = pre ++ t ++ suf ∧ MatchesPat t m N K ∧
          ∀ pre2 t2 suf2 m2 N2 K2, s.data = pre2 ++ t2 ++ suf2 →
            MatchesPat t2 m2 N2 K2 → pre.length ≤ pre2.length) ∨
      (extract_params s = none ∧
        ∀ pre t suf m N K, s.data = pre ++ t ++ suf → ¬ MatchesPat t m N K)) ∧
    extract_params "rs_m3_N10_K5.csv" = some (3, 10, 5) ∧
    (10 : Nat) ≠ 2 ^ 3 - 1 ∧
    extract_params "legacy_data.csv" = none := by
  refine ⟨?_, by decide, by decide, by decide⟩
  intro s
  cases h : extract_params s with
  | some r =>
    obtain ⟨m, N, K⟩ := r
    left
    obtain ⟨pre, t, suf, hdec, hmp, hmin⟩ := searchPat_some_sound h
    exact ⟨m, N, K, rfl, pre, t, suf, hdec, hmp, hmin⟩
  | none =>
    right
    exact ⟨rfl, searchPat_none_sound h⟩

theorem locateRs_ok {listing : List String} {pre msg f : String}
    (h : locateRs listing pre msg = Except.ok f) :
    ∃ rest, listing.filter (fun f2 => startsWithStr pre f2) = f :: rest := by
  unfold locateRs at h
  cases hf : listing.filter (fun f2 => startsWithStr pre f2) with
  | nil => rw [hf] at h; exact Except.noConfusion h
  | cons a t =>
    rw [hf] at h
    simp only [Except.ok.injEq] at h
    exact ⟨t, by rw [h]⟩

theorem head_filter_find {p : String → Bool} :
    ∀ (l : List String) (f : String) (rest : List String),
      l.filter p = f :: rest → l.find? p = some f := by
  intro l
  induction l with
  | nil => intro f rest h; exact List.noConfusion h
  | cons a t ih =>
    intro f rest h
    by_cases ha : p a = true
    · rw [List.filter_cons_of_pos ha] at h
      rw [List.find?_cons_of_pos t ha]
      simp only [List.cons.injEq] at h
      rw [h.1]
    · rw [List.filter_cons_of_neg (by simpa using ha)] at h
      rw [List.find?_cons_of_neg t (by simpa using ha)]
      exact ih f rest h

/-- The complete case analysis of a plot_rs_ber_bler.py run: it stops before
the first figure, after the first figure, or completes, and in each case the
outcome is given literally. -/
theorem rsRun_shape (listing : List String) (tables : String → Option (Frame A)) :
    (∃ e, rsRun listing tables = ⟨[FsEvent.mkdirAll "images"], [], some e⟩) ∨
    (∃ bf rest df ex ers ebp,
      listing.filter (fun f => startsWithStr "rs_ber" f) = bf :: rest ∧
      tables ("results/" ++ bf) = some df ∧
      getCol df "EbN0_dB" = some ex ∧
      getCol df "BER_RS" = some ers ∧
      getCol df "BER_bpsk" = some ebp ∧
      ((∃ e, rsRun listing tables = ⟨FsEvent.mkdirAll "images" :: berSaves,
          [rsBerChart (extract_params ("results/" ++ bf)) ex ers ebp], some e⟩) ∨
        (∃ blf brest df2 ex2 brs bbp,
          listing.filter (fun f => startsWithStr "rs_bler" f) = blf :: brest ∧
          tables ("results/" ++ blf) = some df2 ∧
          getCol df2 "EbN0_dB" = some ex2 ∧
          getCol df2 "BLER_RS" = some brs ∧
          getCol df2 "BLER_bpsk" = some bbp ∧
          rsRun listing tables = ⟨FsEvent.mkdirAll "images" ::
              (berSaves ++ blerSaves),
            [rsBerChart (extract_params ("results/" ++ bf)) ex ers ebp,
             rsBlerChart (extract_params ("results/" ++ bf)) ex2 brs bbp],
            none⟩))) := by
  cases hloc : locateRs listing "rs_ber" berMissingMsg with
  | error e => exact Or.inl ⟨e, by simp [rsRun, hloc]⟩
  | ok bf =>
    obtain ⟨rest, hfil⟩ := locateRs_ok hloc
    cases ht : tables ("results/" ++ bf) with
    | none =>
      exact Or.inl ⟨RunErr.readFail ("results/" ++ bf), by simp [rsRun, hloc, ht]⟩
    | some df =>
      cases h1 : getCol df "EbN0_dB" with
      | none =>
        exact Or.inl ⟨RunErr.missingCol "EbN0_dB", by simp [rsRun, hloc, ht, h1]⟩
      | some ex =>
        cases h2 : getCol df "BER_RS" with
        | none =>
          exact Or.inl ⟨RunErr.missingCol "BER_RS",
            by simp [rsRun, hloc, ht, h1, h2]⟩
        | some ers =>
          cases h3 : getCol df "BER_bpsk" with
          | none =>
            exact Or.inl ⟨RunErr.missingCol "BER_bpsk",
              by simp [rsRun, hloc, ht, h1, h2, h3]⟩
          | some ebp =>
            refine Or.inr ⟨bf, rest, df, ex, ers, ebp, hfil, ht, h1, h2, h3, ?_⟩
            cases hloc2 : locateRs listing "rs_bler" blerMissingMsg with
            | error e =>
              exact Or.inl ⟨e, by simp [rsRun, hloc, ht, h1, h2, h3, hloc2]⟩
            | ok blf =>
              obtain ⟨brest, hfil2⟩ := locateRs_ok hloc2
              cases ht2 : tables ("results/" ++ blf) with
              | none =>
                exact Or.inl ⟨RunErr.readFail ("results/" ++ blf),
                  by simp [rsRun, hloc, ht, h1, h2, h3, hloc2, ht2]⟩
              | some df2 =>
                cases h4 : getCol df2 "EbN0_dB" with
                | none =>
                  exact Or.inl ⟨RunErr.missingCol "EbN0_dB",
                    by simp [rsRun, hloc, ht, h1, h2, h3, hloc2, ht2, h4]⟩
                | some ex2 =>
                  cases h5 : getCol df2 "BLER_RS" with
                  | none =>
                    exact Or.inl ⟨RunErr.missingCol "BLER_RS",
                      by simp [rsRun, hloc, ht, h1, h2, h3, hloc2, ht2, h4, h5]⟩
                  | some brs =>
                    cases h6 : getCol df2 "BLER_bpsk" with
                    | none =>
                      exact Or.inl ⟨RunErr.missingCol "BLER_bpsk",
                        by simp [rsRun, hloc, ht, h1, h2, h3, hloc2, ht2,
                          h4, h5, h6]⟩
                    | some bbp =>
                      exact Or.inr ⟨blf, brest, df2, ex2, brs, bbp, hfil2, ht2,
                        h4, h5, h6,
                        by simp [rsRun, hloc, ht, h1, h2, h3, hloc2, ht2,
                          h4, h5, h6]⟩

/-- The complete case analysis of a plot_nsc_ber.py run. -/
theorem nscRun_shape (tables : String → Option (Frame A)) :
    (∃ e, nscRun tables = ⟨[FsEvent.mkdirAll "images"], [], some e⟩) ∨
    (∃ df ex es eh eb,
      tables "results/nsc_ber_data.csv" = some df ∧
      getCol df "EbN0_dB" = some ex ∧
      getCol df "BER_soft" = some es ∧
      getCol df "BER_hard" = some eh ∧
      getCol df "BER_bpsk" = some eb ∧
      nscRun tables = ⟨FsEvent.mkdirAll "images" :: nscSaves,
        [nscChart ex es eh eb], none⟩) := by
  cases ht : tables "results/nsc_ber_data.csv" with
  | none =>
    exact Or.inl ⟨RunErr.readFail "results/nsc_ber_data.csv",
      by simp [nscRun, ht]⟩
  | some df =>
    cases h1 : getCol df "EbN0_dB" with
    | none => exact Or.inl ⟨RunErr.missingCol "EbN0_dB", by simp [nscRun, ht, h1]⟩
    | some ex =>
      cases h2 : getCol df "BER_soft" with
      | none =>
        exact Or.inl ⟨RunErr.missingCol "BER_soft", by simp [nscRun, ht, h1, h2]⟩
      | some es =>
        cases h3 : getCol df "BER_hard" with
        | none =>
          exact Or.inl ⟨RunErr.missingCol "BER_hard",
            by simp [nscRun, ht, h1, h2, h3]⟩
        | some eh =>
          cases h4 : getCol df "BER_bpsk" with
          | none =>
            exact Or.inl ⟨RunErr.missingCol "BER_bpsk",
              by simp [nscRun, ht, h1, h2, h3, h4]⟩
          | some eb =>
            exact Or.inr ⟨df, ex, es, eh, eb, rfl, h1, h2, h3, h4,
              by simp [nscRun, ht, h1, h2, h3, h4]⟩

/-- Claim C1 (amended): the coded series label is NOT conditional on the
extracted SchemeParameters.  Both RS charts label their coded curve with the
f-string template RS(N,K) coded BPSK interpolated unconditionally from the
triple extracted from the selected BER filename; when extraction returned
the absent sentinel the label interpolates the sentinel itself, giving
RS(None,None) coded BPSK, and no generic-label branch exists in the code. -/
theorem rs_label_always_interpolated (listing : List String)
    (tables : String → Option (Frame A)) (c : Chart A) (bf : String)
    (rest : List String)
    (hber : listing.filter (fun f => startsWithStr "rs_ber" f) = bf :: rest)
    (hc : c ∈ (rsRun listing tables).charts) :
    (c.series.map SeriesLine.label).head? =
      some (rsCodedLabel (nPart (extract_params ("results/" ++ bf)))
        (kPart (extract_params ("results/" ++ bf)))) ∧
    rsCodedLabel none none = "RS(None,None) coded BPSK" := by
  refine ⟨?_, by decide⟩
  rcases rsRun_shape listing tables with ⟨e, hout⟩ |
    ⟨bf2, rest2, df, ex, ers, ebp, hfil, ht, h1, h2, h3, hrest⟩
  · rw [hout] at hc
    simp at hc
  · have hbf : bf2 = bf := by
      rw [hber] at hfil
      exact (List.cons.injEq _ _ _ _ ▸ hfil).1.symm
    subst hbf
    rcases hrest with ⟨e, hout⟩ | ⟨blf, brest, df2, ex2, brs, bbp, hfil2, ht2,
      h4, h5, h6, hout⟩
    · rw [hout] at hc
      simp only [List.mem_singleton] at hc
      subst hc
      rfl
    · rw [hout] at hc
      simp only [List.mem_cons, List.mem_singleton, List.not_mem_nil,
        or_false] at hc
      rcases hc with hc | hc <;> (subst hc; rfl)

/-- Claim C1 witness: on a parameter-bearing BER filename the coded label of
the rendered BER chart is the interpolated RS(255,223) template. -/
theorem rs_label_always_interpolated_witness :
    ((rsBerChart (extract_params "results/rs_ber_m8_N255_K223.csv")
        ([0, 3] : List Nat) [1, 4] [2, 5]).series.map SeriesLine.label).head? =
      some "RS(255,223) coded BPSK" := by
  have h := rs_label_always_interpolated listingA tablesA
      (rsBerChart (extract_params "results/rs_ber_m8_N255_K223.csv")
        ([0, 3] : List Nat) [1, 4] [2, 5])
      "rs_ber_m8_N255_K223.csv" [] (by decide) (by decide)
  rw [h.1]
  decide

/-- Claim C1 counterexample: a selected BER filename with no embedded
parameters.  Extraction returns the absent sentinel, yet the rendered
coded series of the rendered charts are labeled "RS(None,None) coded BPSK" -- the same
interpolated template, not a generic label. -/
theorem rs_generic_label_missing :
    extract_params "results/rs_ber_legacy.csv" = none ∧
    (rsRun listingLegacy tablesA).charts.map
        (fun c => (c.series.map SeriesLine.label).head?) =
      [some "RS(None,None) coded BPSK", some "RS(None,None) coded BPSK"] :=
  ⟨by decide, by decide⟩

/-- Claim C2 (amended): the lower-right m annotation is NOT conditional on
successful extraction.  Every chart rendered by the RS script carries the
text box with the f-string m={m} built from the triple extracted from the
BER filename; when extraction returned the absent sentinel the box is still
drawn, reading m=None. -/
theorem rs_note_always_drawn (listing : List String)
    (tables : String → Option (Frame A)) (c : Chart A) (bf : String)
    (rest : List String)
    (hber : listing.filter (fun f => startsWithStr "rs_ber" f) = bf :: rest)
    (hc : c ∈ (rsRun listing tables).charts) :
    c.noteLR = some (mNote (mPart (extract_params ("results/" ++ bf)))) ∧
    mNote none = "m=None" := by
  refine ⟨?_, by decide⟩
  rcases rsRun_shape listing tables with ⟨e, hout⟩ |
    ⟨bf2, rest2, df, ex, ers, ebp, hfil, ht, h1, h2, h3, hrest⟩
  · rw [hout] at hc
    simp at hc
  · have hbf : bf2 = bf := by
      rw [hber] at hfil
      exact (List.cons.injEq _ _ _ _ ▸ hfil).1.symm
    subst hbf
    rcases hrest with ⟨e, hout⟩ | ⟨blf, brest, df2, ex2, brs, bbp, hfil2, ht2,
      h4, h5, h6, hout⟩
    · rw [hout] at hc
      simp only [List.mem_singleton] at hc
      subst hc
      rfl
    · rw [hout] at hc
      simp only [List.mem_cons, List.mem_singleton, List.not_mem_nil,
        or_false] at hc
      rcases hc with hc | hc <;> (subst hc; rfl)

/-- Claim C2 witness: with parameters extracted, the rendered BER chart
carries the annotation text m=8. -/
theorem rs_note_always_drawn_witness :
    (rsBerChart (extract_params "results/rs_ber_m8_N255_K223.csv")
        ([0, 3] : List Nat) [1, 4] [2, 5]).noteLR = some "m=8" := by
  have h := rs_note_always_drawn listingA tablesA
      (rsBerChart (extract_params "results/rs_ber_m8_N255_K223.csv")
        ([0, 3] : List Nat) [1, 4] [2, 5])
      "rs_ber_m8_N255_K223.csv" [] (by decide) (by decide)
  rw [h.1]
  decide

/-- Claim C2 counterexample: extraction fails on the selected filename, yet
both rendered charts still draw the lower-right box, with text m=None; the
annotation is not omitted. -/
theorem rs_note_drawn_without_params :
    extract_params "results/rs_ber_legacy.csv" = none ∧
    (rsRun listingLegacy tablesA).charts.map Chart.noteLR =
      [some "m=None", some "m=None"] :=
  ⟨by decide, by decide⟩

/-- Claim C10: the legend label and the m text box of the BLER chart always use the
triple extracted from the path of the selected BER file; the BLER filename is
never given to the Parameter Extractor, so whatever triple the BLER name
encodes, the displayed parameters are those of the BER filename. -/
theorem bler_chart_uses_ber_params (listing : List String)
    (tables : String → Option (Frame A)) (c1 c2 : Chart A) (bf : String)
    (rest : List String)
    (hber : listing.filter (fun f => startsWithStr "rs_ber" f) = bf :: rest)
    (hcharts : (rsRun listing tables).charts = [c1, c2]) :
    (c2.series.map SeriesLine.label).head? =
      some (rsCodedLabel (nPart (extract_params ("results/" ++ bf)))
        (kPart (extract_params ("results/" ++ bf)))) ∧
    c2.noteLR = some (mNote (mPart (extract_params ("results/" ++ bf)))) := by
  rcases rsRun_shape listing tables with ⟨e, hout⟩ |
    ⟨bf2, rest2, df, ex, ers, ebp, hfil, ht, h1, h2, h3, hrest⟩
  · rw [hout] at hcharts
    simp at hcharts
  · have hbf : bf = bf2 := by
      rw [hber] at hfil
      exact (List.cons.injEq _ _ _ _ ▸ hfil).1
    subst hbf
    rcases hrest with ⟨e, hout⟩ | ⟨blf, brest, df2, ex2, brs, bbp, hfil2, ht2,
      h4, h5, h6, hout⟩
    · rw [hout] at hcharts
      simp at hcharts
    · rw [hout] at hcharts
      simp only [Outcome.mk.injEq] at hcharts
      have hc2 : c2 = rsBlerChart (extract_params ("results/" ++ bf)) ex2 brs bbp := by
        have := hcharts
        simp only [List.cons.injEq] at this
        exact this.2.1.symm
      subst hc2
      exact ⟨rfl, rfl⟩

/-- Claim C10 witness: the BLER filename encodes (4, 15, 9), yet the BLER
chart displays RS(255,223) and m=8, taken from the BER filename. -/
theorem bler_chart_uses_ber_params_witness :
    ∃ c1 c2, (rsRun listingA tablesA).charts = [c1, c2] ∧
      (c2.series.map SeriesLine.label).head? = some "RS(255,223) coded BPSK" ∧
      c2.noteLR = some "m=8" ∧
      extract_params "results/rs_bler_m4_N15_K9.csv" = some (4, 15, 9) := by
  refine ⟨rsBerChart (extract_params "results/rs_ber_m8_N255_K223.csv")
      ([0, 3] : List Nat) [1, 4] [2, 5],
    rsBlerChart (extract_params "results/rs_ber_m8_N255_K223.csv")
      ([0, 3] : List Nat) [6, 8] [7, 9], by decide, ?_, ?_, by decide⟩
  · have h := bler_chart_uses_ber_params listingA tablesA
        (rsBerChart (extract_params "results/rs_ber_m8_N255_K223.csv")
          ([0, 3] : List Nat) [1, 4] [2, 5])
        (rsBlerChart (extract_params "results/rs_ber_m8_N255_K223.csv")
          ([0, 3] : List Nat) [6, 8] [7, 9])
        "rs_ber_m8_N255_K223.csv" [] (by decide) (by decide)
    rw [h.1]
    decide
  · have h := bler_chart_uses_ber_params listingA tablesA
        (rsBerChart (extract_params "results/rs_ber_m8_N255_K223.csv")
          ([0, 3] : List Nat) [1, 4] [2, 5])
        (rsBlerChart (extract_params "results/rs_ber_m8_N255_K223.csv")
          ([0, 3] : List Nat) [6, 8] [7, 9])
        "rs_ber_m8_N255_K223.csv" [] (by decide) (by decide)
    rw [h.2]
    decide

/-- Claim C4: for every results-directory listing and family prefix, the
locator considers exactly the entries whose name starts with the prefix;
with no match it fails carrying the given message, and with several matches
it returns the first in listing order (the head of the filtered list, which
is the first entry of the listing satisfying the prefix test).  The two
messages used by the script each spell out the expected pattern, beginning
with the family prefix. -/
theorem locator_first_match_or_error (listing : List String) (pre msg : String) :
    (listing.filter (fun f => startsWithStr pre f) = [] →
      locateRs listing pre msg = Except.error (RunErr.missingInput msg)) ∧
    (∀ f rest, listing.filter (fun f2 => startsWithStr pre f2) = f :: rest →
      locateRs listing pre msg = Except.ok f ∧
      listing.find? (fun g => startsWithStr pre g) = some f ∧
      f ∈ listing ∧ startsWithStr pre f = true) ∧
    berMissingMsg = "No " ++ "rs_ber" ++ "_m*_N*_K*.csv found in results/" ∧
    blerMissingMsg = "No " ++ "rs_bler" ++ "_m*_N*_K*.csv found in results/" := by
  refine ⟨?_, ?_, by decide, by decide⟩
  · intro h
    unfold locateRs
    rw [h]
  · intro f rest h
    have hmem : f ∈ listing.filter (fun f2 => startsWithStr pre f2) := by
      rw [h]
      exact List.mem_cons_self f rest
    refine ⟨?_, head_filter_find listing f rest h,
      (List.mem_filter.mp hmem).1, (List.mem_filter.mp hmem).2⟩
    unfold locateRs
    rw [h]

/-- Claim C4 witness: with two matching entries behind a non-matching one,
the locator returns the first match in listing order. -/
theorem locator_first_match_or_error_witness :
    locateRs ["x.csv", "rs_bler_a.csv", "rs_bler_b.csv"] "rs_bler"
        blerMissingMsg = Except.ok "rs_bler_a.csv" ∧
      List.find? (fun g => startsWithStr "rs_bler" g)
        ["x.csv", "rs_bler_a.csv", "rs_bler_b.csv"] = some "rs_bler_a.csv" ∧
      "rs_bler_a.csv" ∈ ["x.csv", "rs_bler_a.csv", "rs_bler_b.csv"] ∧
      startsWithStr "rs_bler" "rs_bler_a.csv" = true :=
  (locator_first_match_or_error ["x.csv", "rs_bler_a.csv", "rs_bler_b.csv"]
    "rs_bler" blerMissingMsg).2.1 "rs_bler_a.csv" ["rs_bler_b.csv"] (by decide)

/-- Claim C5: when no entry of the listing starts with rs_bler but the BER
stage succeeded, the run stops with the missing-input error for the BLER
pattern; the events on disk are exactly the directory creation and the two
already-written BER files (which remain, no cleanup), and only the BER
chart was rendered -- no BLER chart and no BLER output files. -/
theorem bler_missing_aborts_after_ber (listing : List String)
    (tables : String → Option (Frame A)) (bf : String) (rest : List String)
    (df : Frame A) (ex ers ebp : List A)
    (hber : listing.filter (fun f => startsWithStr "rs_ber" f) = bf :: rest)
    (ht : tables ("results/" ++ bf) = some df)
    (h1 : getCol df "EbN0_dB" = some ex)
    (h2 : getCol df "BER_RS" = some ers)
    (h3 : getCol df "BER_bpsk" = some ebp)
    (hbler : listing.filter (fun f => startsWithStr "rs_bler" f) = []) :
    (rsRun listing tables).err = some (RunErr.missingInput blerMissingMsg) ∧
    (rsRun listing tables).events = [FsEvent.mkdirAll "images",
      FsEvent.save "images/rs_ber_graph.png" 300 true,
      FsEvent.save "images/rs_ber_graph.svg" 300 true] ∧
    (rsRun listing tables).charts =
      [rsBerChart (extract_params ("results/" ++ bf)) ex ers ebp] := by
  have hloc : locateRs listing "rs_ber" berMissingMsg = Except.ok bf := by
    unfold locateRs
    rw [hber]
  have hloc2 : locateRs listing "rs_bler" blerMissingMsg =
      Except.error (RunErr.missingInput blerMissingMsg) := by
    unfold locateRs
    rw [hbler]
  refine ⟨?_, ?_, ?_⟩ <;> simp [rsRun, hloc, ht, h1, h2, h3, hloc2, berSaves]

/-- Claim C5 witness: a concrete listing holding only a BER file. -/
theorem bler_missing_aborts_after_ber_witness :
    (rsRun listingNoBler tablesA).err =
      some (RunErr.missingInput blerMissingMsg) ∧
    (rsRun listingNoBler tablesA).events = [FsEvent.mkdirAll "images",
      FsEvent.save "images/rs_ber_graph.png" 300 true,
      FsEvent.save "images/rs_ber_graph.svg" 300 true] ∧
    (rsRun listingNoBler tablesA).charts =
      [rsBerChart (extract_params ("results/" ++ "rs_ber_m8_N255_K223.csv"))
        [0, 3] [1, 4] [2, 5]] :=
  bler_missing_aborts_after_ber listingNoBler tablesA
    "rs_ber_m8_N255_K223.csv" [] frameBer [0, 3] [1, 4] [2, 5]
    (by decide) (by decide) (by decide) (by decide) (by decide) (by decide)

theorem colIdx_of_mem {hdr : List String} {nm : String} (h : nm ∈ hdr) :
    ∃ i, colIdx? hdr nm = some i ∧ i < hdr.length := by
  induction hdr with
  | nil => exact absurd h (List.not_mem_nil nm)
  | cons a t ih =>
    by_cases ha : a = nm
    · exact ⟨0, by simp [colIdx?, ha], Nat.succ_pos t.length⟩
    · have hmem : nm ∈ t := by
        rcases List.mem_cons.mp h with hh | hh
        · exact absurd hh.symm ha
        · exact hh
      obtain ⟨i, hi, hlt⟩ := ih hmem
      exact ⟨i + 1, by simp [colIdx?, ha, hi], Nat.succ_lt_succ hlt⟩

theorem colVals_all_some (i : Nat) :
    ∀ rows : List (List A), (∀ r ∈ rows, i < r.length) →
      ∃ xs, colVals? i rows = some xs ∧ xs.length = rows.length ∧
        ∀ j, xs.get? j = (rows.get? j).bind (fun r => r.get? i) := by
  intro rows
  induction rows with
  | nil => exact fun _ => ⟨[], rfl, rfl, fun j => by simp⟩
  | cons r rs ih =>
    intro hb
    have hr : i < r.length := hb r (List.mem_cons_self r rs)
    have hra : r.get? i = some (r.get ⟨i, hr⟩) := List.get?_eq_get hr
    obtain ⟨xs, hxs, hlen, hval⟩ :=
      ih (fun q hq => hb q (List.mem_cons_of_mem r hq))
    refine ⟨r.get ⟨i, hr⟩ :: xs, ?_, by simp [hlen], ?_⟩
    · simp only [colVals?, hra, hxs]
    · intro j
      cases j with
      | zero => simp [hra]
      | succ j2 => simpa using hval j2

/-- Claim C6: for a well-formed table (rectangular rows) and a present
column name, the Series Loader returns exactly the cells of that column in
row order: the length of the sequence is the row count of the table and each entry is
the cell of the corresponding row at the resolved column index -- no
resampling, interpolation or conversion (the cell type is abstract, so no
transformation is even expressible). -/
theorem series_loader_column_exact (fr : Frame A) (nm : String)
    (hmem : nm ∈ fr.header)
    (hlen : ∀ r ∈ fr.rows, r.length = fr.header.length) :
    ∃ i xs, colIdx? fr.header nm = some i ∧ getCol fr nm = some xs ∧
      xs.length = fr.rows.length ∧
      ∀ j, xs.get? j = (fr.rows.get? j).bind (fun r => r.get? i) := by
  obtain ⟨i, hi, hlt⟩ := colIdx_of_mem hmem
  obtain ⟨xs, hxs, hxlen, hxval⟩ := colVals_all_some i fr.rows
    (fun r hr => by rw [hlen r hr]; exact hlt)
  refine ⟨i, xs, hi, ?_, hxlen, hxval⟩
  unfold getCol
  rw [hi]
  exact hxs

/-- Claim C6 witness: the BER_RS column of a concrete two-row table. -/
theorem series_loader_column_exact_witness :
    ∃ i xs, colIdx? frameBer.header "BER_RS" = some i ∧
      getCol frameBer "BER_RS" = some xs ∧
      xs.length = frameBer.rows.length ∧
      ∀ j, xs.get? j = (frameBer.rows.get? j).bind (fun r => r.get? i) :=
  series_loader_column_exact frameBer "BER_RS" (by decide) (by decide)

/-- However the parameters interpolate, an RS coded label starts with "RS("
and so never collides with the theoretical series label. -/
theorem rsCodedLabel_ne_theory (N K : Option Nat) :
    rsCodedLabel N K ≠ "Uncoded BPSK (theory)" := by
  intro h
  have h2 := congrArg (fun s => s.data.head?) h
  simp only [rsCodedLabel, String.data_append] at h2
  simp at h2

theorem c8_props_ber (p : Option (Nat × Nat × Nat)) (ex ers ebp : List A) :
    (rsBerChart p ex ers ebp).series.map styleOf =
      [(some Marker.circle, true, Rat.mk' 5 2), (none, false, Rat.mk' 5 2)] ∧
    (∀ sr ∈ (rsBerChart p ex ers ebp).series,
      (sr.marker = none ↔ sr.label = "Uncoded BPSK (theory)")) ∧
    (∀ sr ∈ (rsBerChart p ex ers ebp).series, sr.marker ≠ none →
      sr.faceNone = true ∧ sr.markerSize = some 8 ∧
      sr.edgeWidth = some (Rat.mk' 9 5)) := by
  refine ⟨rfl, ?_, ?_⟩
  · intro sr hsr
    simp only [rsBerChart, List.mem_cons, List.not_mem_nil, or_false] at hsr
    rcases hsr with h | h <;> subst h
    · exact iff_of_false (fun hx => Option.noConfusion hx)
        (rsCodedLabel_ne_theory _ _)
    · exact iff_of_true rfl rfl
  · intro sr hsr
    simp only [rsBerChart, List.mem_cons, List.not_mem_nil, or_false] at hsr
    rcases hsr with h | h <;> subst h
    · exact fun _ => ⟨rfl, rfl, rfl⟩
    · exact fun h2 => absurd rfl h2

theorem c8_props_bler (p : Option (Nat × Nat × Nat)) (ex brs bbp : List A) :
    (rsBlerChart p ex brs bbp).series.map styleOf =
      [(some Marker.square, true, Rat.mk' 5 2), (none, false, Rat.mk' 5 2)] ∧
    (∀ sr ∈ (rsBlerChart p ex brs bbp).series,
      (sr.marker = none ↔ sr.label = "Uncoded BPSK (theory)")) ∧
    (∀ sr ∈ (rsBlerChart p ex brs bbp).series, sr.marker ≠ none →
      sr.faceNone = true ∧ sr.markerSize = some 8 ∧
      sr.edgeWidth = some (Rat.mk' 9 5)) := by
  refine ⟨rfl, ?_, ?_⟩
  · intro sr hsr
    simp only [rsBlerChart, List.mem_cons, List.not_mem_nil, or_false] at hsr
    rcases hsr with h | h <;> subst h
    · exact iff_of_false (fun hx => Option.noConfusion hx)
        (rsCodedLabel_ne_theory _ _)
    · exact iff_of_true rfl rfl
  · intro sr hsr
    simp only [rsBlerChart, List.mem_cons, List.not_mem_nil, or_false] at hsr
    rcases hsr with h | h <;> subst h
    · exact fun _ => ⟨rfl, rfl, rfl⟩
    · exact fun h2 => absurd rfl h2

theorem c8_props_nsc (ex es eh eb : List A) :
    (nscChart ex es eh eb).series.map styleOf =
      [(some Marker.circle, true, Rat.mk' 5 2),
       (some Marker.square, true, Rat.mk' 5 2), (none, false, Rat.mk' 5 2)] ∧
    (∀ sr ∈ (nscChart ex es eh eb).series,
      (sr.marker = none ↔ sr.label = "Uncoded BPSK (theory)")) ∧
    (∀ sr ∈ (nscChart ex es eh eb).series, sr.marker ≠ none →
      sr.faceNone = true ∧ sr.markerSize = some 8 ∧
      sr.edgeWidth = some (Rat.mk' 9 5)) := by
  refine ⟨rfl, ?_, ?_⟩
  · intro sr hsr
    simp only [nscChart, List.mem_cons, List.not_mem_nil, or_false] at hsr
    rcases hsr with h | h | h <;> subst h
    · exact iff_of_false (fun hx => Option.noConfusion hx)
        (show ¬("Soft-decision Viterbi" : String) =
          "Uncoded BPSK (theory)" from by decide)
    · exact iff_of_false (fun hx => Option.noConfusion hx)
        (show ¬("Hard-decision Viterbi" : String) =
          "Uncoded BPSK (theory)" from by decide)
    · exact iff_of_true rfl rfl
  · intro sr hsr
    simp only [nscChart, List.mem_cons, List.not_mem_nil, or_false] at hsr
    rcases hsr with h | h | h <;> subst h
    · exact fun _ => ⟨rfl, rfl, rfl⟩
    · exact fun _ => ⟨rfl, rfl, rfl⟩
    · exact fun h2 => absurd rfl h2

/-- Claim C7: every chart either script renders has a logarithmic y-axis
with limits fixed at [1e-5, 1] whatever the data, and every drawn series
carries, as its x and y data, columns returned verbatim by the Series
Loader from a loaded table -- the pipeline applies no clipping or
transformation of the values. -/
theorem charts_fixed_log_axis_passthrough (listing : List String)
    (tables : String → Option (Frame A)) (c : Chart A)
    (hc : c ∈ (rsRun listing tables).charts ∨ c ∈ (nscRun tables).charts) :
    c.logY = true ∧ c.yLo = Rat.mk' 1 100000 ∧ c.yHi = 1 ∧
    ∀ sr ∈ c.series, ∃ path df nmx nmy, tables path = some df ∧
      getCol df nmx = some sr.xs ∧ getCol df nmy = some sr.ys := by
  rcases hc with hc | hc
  · rcases rsRun_shape listing tables with ⟨e, hout⟩ |
      ⟨bf, rest, df, ex, ers, ebp, hfil, ht, h1, h2, h3, hrest⟩
    · rw [hout] at hc
      simp at hc
    · rcases hrest with ⟨e, hout⟩ | ⟨blf, brest, df2, ex2, brs, bbp, hfil2,
        ht2, h4, h5, h6, hout⟩
      · rw [hout] at hc
        simp only [List.mem_singleton] at hc
        subst hc
        refine ⟨rfl, rfl, rfl, ?_⟩
        intro sr hsr
        simp only [rsBerChart, List.mem_cons, List.not_mem_nil,
          or_false] at hsr
        rcases hsr with h | h <;> subst h
        · exact ⟨"results/" ++ bf, df, "EbN0_dB", "BER_RS", ht, h1, h2⟩
        · exact ⟨"results/" ++ bf, df, "EbN0_dB", "BER_bpsk", ht, h1, h3⟩
      · rw [hout] at hc
        simp only [List.mem_cons, List.not_mem_nil, or_false] at hc
        rcases hc with hc | hc <;> subst hc
        · refine ⟨rfl, rfl, rfl, ?_⟩
          intro sr hsr
          simp only [rsBerChart, List.mem_cons, List.not_mem_nil,
            or_false] at hsr
          rcases hsr with h | h <;> subst h
          · exact ⟨"results/" ++ bf, df, "EbN0_dB", "BER_RS", ht, h1, h2⟩
          · exact ⟨"results/" ++ bf, df, "EbN0_dB", "BER_bpsk", ht, h1, h3⟩
        · refine ⟨rfl, rfl, rfl, ?_⟩
          intro sr hsr
          simp only [rsBlerChart, List.mem_cons, List.not_mem_nil,
            or_false] at hsr
          rcases hsr with h | h <;> subst h
          · exact ⟨"results/" ++ blf, df2, "EbN0_dB", "BLER_RS", ht2, h4, h5⟩
          · exact ⟨"results/" ++ blf, df2, "EbN0_dB", "BLER_bpsk", ht2, h4, h6⟩
  · rcases nscRun_shape tables with ⟨e, hout⟩ |
      ⟨df, ex, es, eh, eb, ht, h1, h2, h3, h4, hout⟩
    · rw [hout] at hc
      simp at hc
    · rw [hout] at hc
      simp only [List.mem_singleton] at hc
      subst hc
      refine ⟨rfl, rfl, rfl, ?_⟩
      intro sr hsr
      simp only [nscChart, List.mem_cons, List.not_mem_nil, or_false] at hsr
      rcases hsr with h | h | h <;> subst h
      · exact ⟨"results/nsc_ber_data.csv", df, "EbN0_dB", "BER_soft",
          ht, h1, h2⟩
      · exact ⟨"results/nsc_ber_data.csv", df, "EbN0_dB", "BER_hard",
          ht, h1, h3⟩
      · exact ⟨"results/nsc_ber_data.csv", df, "EbN0_dB", "BER_bpsk",
          ht, h1, h4⟩

/-- Claim C7 witness: the concrete rendered BER chart has the log axis, the
fixed limits, and pass-through series. -/
theorem charts_fixed_log_axis_passthrough_witness :
    (rsBerChart (extract_params "results/rs_ber_m8_N255_K223.csv")
        ([0, 3] : List Nat) [1, 4] [2, 5]).logY = true ∧
    (rsBerChart (extract_params "results/rs_ber_m8_N255_K223.csv")
        ([0, 3] : List Nat) [1, 4] [2, 5]).yLo = Rat.mk' 1 100000 ∧
    (rsBerChart (extract_params "results/rs_ber_m8_N255_K223.csv")
        ([0, 3] : List Nat) [1, 4] [2, 5]).yHi = 1 ∧
    ∀ sr ∈ (rsBerChart (extract_params "results/rs_ber_m8_N255_K223.csv")
        ([0, 3] : List Nat) [1, 4] [2, 5]).series,
      ∃ path df nmx nmy, tablesA path = some df ∧
        getCol df nmx = some sr.xs ∧ getCol df nmy = some sr.ys :=
  charts_fixed_log_axis_passthrough listingA tablesA
    (rsBerChart (extract_params "results/rs_ber_m8_N255_K223.csv")
      ([0, 3] : List Nat) [1, 4] [2, 5])
    (Or.inl (by decide))

/-- Claim C8: in every rendered chart the coded and simulated series carry a
hollow marker (circle for the convolutional soft and RS BER curves, square
for the hard and BLER curves) with a connecting line, and the theoretical
uncoded BPSK series is the one and only series drawn as a line with no
marker; every marked series is hollow (markerfacecolor "none") with the
fixed sizes. -/
theorem series_marker_conventions (listing : List String)
    (tables : String → Option (Frame A)) (c : Chart A)
    (hc : c ∈ (rsRun listing tables).charts ∨ c ∈ (nscRun tables).charts) :
    (c.series.map styleOf = [(some Marker.circle, true, Rat.mk' 5 2),
        (none, false, Rat.mk' 5 2)] ∧ c.yLab = "Bit Error Rate (BER)" ∨
      c.series.map styleOf = [(some Marker.square, true, Rat.mk' 5 2),
        (none, false, Rat.mk' 5 2)] ∧ c.yLab = "Block Error Rate (BLER)" ∨
      c.series.map styleOf = [(some Marker.circle, true, Rat.mk' 5 2),
        (some Marker.square, true, Rat.mk' 5 2),
        (none, false, Rat.mk' 5 2)] ∧ c.yLab = "Bit Error Rate (BER)") ∧
    (∀ sr ∈ c.series, (sr.marker = none ↔
      sr.label = "Uncoded BPSK (theory)")) ∧
    (∀ sr ∈ c.series, sr.marker ≠ none → sr.faceNone = true ∧
      sr.markerSize = some 8 ∧ sr.edgeWidth = some (Rat.mk' 9 5)) := by
  rcases hc with hc | hc
  · rcases rsRun_shape listing tables with ⟨e, hout⟩ |
      ⟨bf, rest, df, ex, ers, ebp, hfil, ht, h1, h2, h3, hrest⟩
    · rw [hout] at hc
      simp at hc
    · rcases hrest with ⟨e, hout⟩ | ⟨blf, brest, df2, ex2, brs, bbp, hfil2,
        ht2, h4, h5, h6, hout⟩
      · rw [hout] at hc
        simp only [List.mem_singleton] at hc
        subst hc
        obtain ⟨hstyle, hiff, hface⟩ := c8_props_ber
          (extract_params ("results/" ++ bf)) ex ers ebp
        exact ⟨Or.inl ⟨hstyle, rfl⟩, hiff, hface⟩
      · rw [hout] at hc
        simp only [List.mem_cons, List.not_mem_nil, or_false] at hc
        rcases hc with hc | hc <;> subst hc
        · obtain ⟨hstyle, hiff, hface⟩ := c8_props_ber
            (extract_params ("results/" ++ bf)) ex ers ebp
          exact ⟨Or.inl ⟨hstyle, rfl⟩, hiff, hface⟩
        · obtain ⟨hstyle, hiff, hface⟩ := c8_props_bler
            (extract_params ("results/" ++ bf)) ex2 brs bbp
          exact ⟨Or.inr (Or.inl ⟨hstyle, rfl⟩), hiff, hface⟩
  · rcases nscRun_shape tables with ⟨e, hout⟩ |
      ⟨df, ex, es, eh, eb, ht, h1, h2, h3, h4, hout⟩
    · rw [hout] at hc
      simp at hc
    · rw [hout] at hc
      simp only [List.mem_singleton] at hc
      subst hc
      obtain ⟨hstyle, hiff, hface⟩ := c8_props_nsc ex es eh eb
      exact ⟨Or.inr (Or.inr ⟨hstyle, rfl⟩), hiff, hface⟩

/-- Claim C8 witness: the concrete NSC chart shows the circle, square, and
line-only convention. -/
theorem series_marker_conventions_witness :
    ((nscChart ([0, 4] : List Nat) [1, 5] [2, 6] [3, 7]).series.map styleOf =
        [(some Marker.circle, true, Rat.mk' 5 2),
         (none, false, Rat.mk' 5 2)] ∧
      (nscChart ([0, 4] : List Nat) [1, 5] [2, 6] [3, 7]).yLab =
        "Bit Error Rate (BER)" ∨
      (nscChart ([0, 4] : List Nat) [1, 5] [2, 6] [3, 7]).series.map styleOf =
        [(some Marker.square, true, Rat.mk' 5 2),
         (none, false, Rat.mk' 5 2)] ∧
      (nscChart ([0, 4] : List Nat) [1, 5] [2, 6] [3, 7]).yLab =
        "Block Error Rate (BLER)" ∨
      (nscChart ([0, 4] : List Nat) [1, 5] [2, 6] [3, 7]).series.map styleOf =
        [(some Marker.circle, true, Rat.mk' 5 2),
         (some Marker.square, true, Rat.mk' 5 2),
         (none, false, Rat.mk' 5 2)] ∧
      (nscChart ([0, 4] : List Nat) [1, 5] [2, 6] [3, 7]).yLab =
        "Bit Error Rate (BER)") ∧
    (∀ sr ∈ (nscChart ([0, 4] : List Nat) [1, 5] [2, 6] [3, 7]).series,
      (sr.marker = none ↔ sr.label = "Uncoded BPSK (theory)")) ∧
    (∀ sr ∈ (nscChart ([0, 4] : List Nat) [1, 5] [2, 6] [3, 7]).series,
      sr.marker ≠ none → sr.faceNone = true ∧ sr.markerSize = some 8 ∧
        sr.edgeWidth = some (Rat.mk' 9 5)) :=
  series_marker_conventions ([] : List String) tablesA
    (nscChart ([0, 4] : List Nat) [1, 5] [2, 6] [3, 7])
    (Or.inr (by decide))

/-- Claim C9: each script first ensures the images directory exists --
creation modelled as the idempotent, never-failing makedirsOk, and the very
first filesystem event of every run is that creation -- then persists each
rendered chart as exactly two files sharing a base name, a raster .png and
a vector .svg, every save at 300 dpi with a tight bounding box; a write at
an existing path replaces the file (overwrite without warning). -/
theorem artifact_writer_contract (listing : List String)
    (tables : String → Option (Frame A)) (ds : List String)
    (fs : List (String × Nat × Bool)) (p : String) (meta : Nat × Bool) :
    makedirsOk (makedirsOk ds "images") "images" = makedirsOk ds "images" ∧
    "images" ∈ makedirsOk ds "images" ∧
    (rsRun listing tables).events.head? = some (FsEvent.mkdirAll "images") ∧
    (nscRun tables).events.head? = some (FsEvent.mkdirAll "images") ∧
    (savePathsOf (rsRun listing tables) = [] ∨
      savePathsOf (rsRun listing tables) =
        ["images/rs_ber_graph.png", "images/rs_ber_graph.svg"] ∨
      savePathsOf (rsRun listing tables) =
        ["images/rs_ber_graph.png", "images/rs_ber_graph.svg",
         "images/rs_bler_graph.png", "images/rs_bler_graph.svg"]) ∧
    (savePathsOf (nscRun tables) = [] ∨
      savePathsOf (nscRun tables) =
        ["images/nsc_ber_graph.png", "images/nsc_ber_graph.svg"]) ∧
    saveMetaOk (rsRun listing tables) = true ∧
    saveMetaOk (nscRun tables) = true ∧
    List.lookup p (writeFile fs p meta) = some meta := by
  refine ⟨?_, ?_, ?_, ?_, ?_, ?_, ?_, ?_, ?_⟩
  · unfold makedirsOk
    by_cases h : "images" ∈ ds
    · simp [h]
    · simp [h]
  · unfold makedirsOk
    by_cases h : "images" ∈ ds
    · simp [h]
    · simp [h]
  · rcases rsRun_shape listing tables with ⟨e, hout⟩ |
      ⟨bf, rest, df, ex, ers, ebp, -, -, -, -, -, hrest⟩
    · rw [hout]
      rfl
    · rcases hrest with ⟨e, hout⟩ | ⟨blf, brest, df2, ex2, brs, bbp,
        -, -, -, -, -, hout⟩ <;> (rw [hout]; rfl)
  · rcases nscRun_shape tables with ⟨e, hout⟩ |
      ⟨df, ex, es, eh, eb, -, -, -, -, -, hout⟩ <;> (rw [hout]; rfl)
  · rcases rsRun_shape listing tables with ⟨e, hout⟩ |
      ⟨bf, rest, df, ex, ers, ebp, -, -, -, -, -, hrest⟩
    · exact Or.inl (by rw [hout]; rfl)
    · rcases hrest with ⟨e, hout⟩ | ⟨blf, brest, df2, ex2, brs, bbp,
        -, -, -, -, -, hout⟩
      · exact Or.inr (Or.inl (by rw [hout]; rfl))
      · exact Or.inr (Or.inr (by rw [hout]; rfl))
  · rcases nscRun_shape tables with ⟨e, hout⟩ |
      ⟨df, ex, es, eh, eb, -, -, -, -, -, hout⟩
    · exact Or.inl (by rw [hout]; rfl)
    · exact Or.inr (by rw [hout]; rfl)
  · rcases rsRun_shape listing tables with ⟨e, hout⟩ |
      ⟨bf, rest, df, ex, ers, ebp, -, -, -, -, -, hrest⟩
    · rw [hout]
      rfl
    · rcases hrest with ⟨e, hout⟩ | ⟨blf, brest, df2, ex2, brs, bbp,
        -, -, -, -, -, hout⟩ <;> (rw [hout]; rfl)
  · rcases nscRun_shape tables with ⟨e, hout⟩ |
      ⟨df, ex, es, eh, eb, -, -, -, -, -, hout⟩ <;> (rw [hout]; rfl)
  · simp [writeFile, List.lookup]

end FecPlots
